import Mathlib

/-!
Shallow embedding of `post_settled_invoice.js` (the settled-invoice
notification pipeline of ln-telegram): data model, the asyncAuto task graph
(validate / balancedOpen / getNodes / getPayment / getTransfer / details /
post / quiz) and the external collaborators it consumes, modelled as oracle
functions.  JS strings are Lean `String`s, JS numbers used as amounts or ids
are `Nat`, JS `undefined`/missing values are `Option`, callback errors are
`Except`, and the two side-effecting sends are recorded in a dispatch trace.
-/

namespace LnTelegram

/-- Reserved MarkdownV2 characters, the character class of the `escape`
regular expression on line 15 of the source. -/
def isReservedChar (c : Char) : Bool :=
  c = '_' || c = '*' || c = '[' || c = ']' || c = '(' || c = ')' || c = '~' ||
  c = '\x60' || c = '>' || c = '#' || c = '+' || c = '-' || c = '=' ||
  c = '|' || c = '\x7b' || c = '\x7d' || c = '.' || c = '!' || c = '\\'

/-- Global regex replace of each reserved character by a backslash-prefixed
copy of itself, on the character list of a string. -/
def escapeList : List Char → List Char
  | [] => []
  | c :: rest =>
    if isReservedChar c then '\\' :: c :: escapeList rest
    else c :: escapeList rest

/-- The `escape` helper of the source: backslash-prefix every reserved
MarkdownV2 character. -/
def escape (s : String) : String := String.mk (escapeList s.data)

/-- Fixed send options: parse_mode MarkdownV2. -/
def sendOptions : String := "MarkdownV2"

/-- Minimum number of quiz answers. -/
def minQuizLength : Nat := 2

/-- Maximum number of quiz answers. -/
def maxQuizLength : Nat := 10

/-- A custom TLV record carried on an HTLC. -/
structure MessageTag where
  type : String
  value : String
deriving DecidableEq

/-- One HTLC contribution that funded the invoice. -/
structure PaymentContribution where
  in_channel : String
  mtokens : String
  tokens : Nat
  is_confirmed : Bool
  is_canceled : Bool
  is_held : Bool
  pending_index : Option Nat
  total_mtokens : Option String
  messages : List MessageTag
deriving DecidableEq

/-- The settled invoice that triggers the pipeline. -/
structure Invoice where
  description : String
  id : String
  is_confirmed : Bool
  is_push : Bool
  confirmed_at : Option String
  payments : List PaymentContribution
  received : Nat
  received_mtokens : String
deriving DecidableEq

/-- One side of a channel, as returned by a channel lookup. -/
structure Policy where
  public_key : String
deriving DecidableEq

/-- A channel lookup result. -/
structure Channel where
  policies : List Policy
deriving DecidableEq

/-- A resolved channel counterparty label, the shape produced by
`getNodes`; `aliasLabel` carries the source field named `alias`, which is a
reserved word here. -/
structure NodeAlias where
  id : String
  aliasLabel : String
deriving DecidableEq

/-- A node controlled by the operator. -/
structure ControlledNode where
  fromLabel : String
  lnd : Nat
  public_key : String
deriving DecidableEq

/-- A balanced-open proposal parsed from the invoice. -/
structure BalancedOpenProposal where
  capacity : Nat
  partner_public_key : String
  fee_rate : Nat
deriving DecidableEq

/-- The fields of the invoice that `balancedOpenRequest` consumes. -/
structure BalancedOpenArgs where
  confirmed_at : Option String
  is_push : Bool
  payments : List PaymentContribution
  received_mtokens : String
deriving DecidableEq

/-- The past payment record delivered by a `confirmed` event. -/
structure PaymentRecord where
  fee_mtokens : String
  hops : List String
deriving DecidableEq

/-- The single terminal event of a past-payment subscription. -/
inductive PastPaymentEvent where
  | confirmed (payment : PaymentRecord)
  | error
  | failed
deriving DecidableEq

/-- The message descriptor a composer collaborator returns. -/
structure MessageDescriptor where
  icon : String
  message : String
  title : Option String
  quiz : Option (List String)
deriving DecidableEq

/-- A record of which message composer the `details` task invokes,
together with the exact facts handed to it. -/
inductive ComposerCall where
  | balancedOpenMsg (lnd : Nat) (capacity : Nat) (fromKey : String) (rate : Nat)
  | rebalanceMsg (lnd : Nat) (fee_mtokens : String) (hops : List String)
      (payments : List PaymentContribution) (received_mtokens : String)
  | receivedMsg (lnd : Nat) (description : String)
      (payments : List PaymentContribution) (received : Nat)
      (via : List NodeAlias)
deriving DecidableEq

/-- An observable dispatch: either a text send or a quiz send. -/
inductive DispatchEvent where
  | text (userId : Nat) (message : String) (parse_mode : String)
  | quiz (answers : List String) (correct : Nat) (question : Option String)
deriving DecidableEq

/-- The argument object of the pipeline; `Option.none` models a missing or
falsy field (`nodes = Option.none` models a non-array value). -/
structure Args where
  fromName : Option String
  id : Option Nat
  invoice : Option Invoice
  key : Option String
  lnd : Option Nat
  nodes : Option (List ControlledNode)
  quiz : Option Unit
  send : Option Unit

/-- External collaborators consumed by the pipeline. -/
structure Oracles where
  balancedOpenRequest : BalancedOpenArgs → Option BalancedOpenProposal
  getChannel : Nat → String → Except Unit Channel
  getNodeAlias : Nat → String → NodeAlias
  pastPayment : Nat → String → PastPaymentEvent
  getBalancedOpenMessage : Nat → Nat → String → Nat → MessageDescriptor
  getRebalanceMessage :
    Nat → String → List String → List PaymentContribution → String →
      MessageDescriptor
  getReceivedMessage :
    Nat → String → List PaymentContribution → Nat → List NodeAlias →
      MessageDescriptor
  rnd : Nat → Nat

/-- Insertion-order dedup with a seen accumulator: an element is kept
exactly when it has not appeared before. -/
def uniqAux (seen : List String) : List String → List String
  | [] => []
  | x :: rest =>
    if seen.contains x then uniqAux seen rest
    else x :: uniqAux (x :: seen) rest

/-- Set-based dedup keeping the first occurrence of each element,
the `uniq` helper of the source. -/
def uniq (l : List String) : List String := uniqAux [] l

/-- Resolution of one incoming channel id (source lines 126-134): on channel
lookup failure fall back to `{id, alias: id}`; on success select the policy
whose public key differs from the receiving key and resolve that key to an
alias.  The source dereferences `peer.public_key` without checking that
`find` produced anything; the `Option.none` result models that invalid
dereference (a thrown TypeError), for which no fallback applies. -/
def resolveChannelAlias (getChannel : Nat → String → Except Unit Channel)
    (getNodeAlias : Nat → String → NodeAlias) (lnd : Nat) (key : String)
    (id : String) : Option NodeAlias :=
  match getChannel lnd id with
  | Except.error _ => some { id := id, aliasLabel := id }
  | Except.ok res =>
    match res.policies.find? (fun n => n.public_key != key) with
    | Option.none => Option.none
    | some peer => some (getNodeAlias lnd peer.public_key)

/-- The `getNodes` task (source lines 122-137): resolve every distinct
incoming channel of the invoice's payments.  It carries no
`invoice.is_confirmed` guard. -/
def getNodesStep (getChannel : Nat → String → Except Unit Channel)
    (getNodeAlias : Nat → String → NodeAlias) (lnd : Nat) (key : String)
    (invoice : Invoice) : Option (List NodeAlias) :=
  (uniq (invoice.payments.map (fun n => n.in_channel))).mapM
    (resolveChannelAlias getChannel getNodeAlias lnd key)

/-- The `balancedOpen` task (source lines 105-119): exit early when the
invoice is unconfirmed, otherwise parse a balanced open proposal from the
invoice fields. -/
def balancedOpenStep
    (balancedOpenRequest : BalancedOpenArgs → Option BalancedOpenProposal)
    (invoice : Invoice) : Option BalancedOpenProposal :=
  if !invoice.is_confirmed then Option.none
  else
    balancedOpenRequest
      { confirmed_at := invoice.confirmed_at
        is_push := invoice.is_push
        payments := invoice.payments
        received_mtokens := invoice.received_mtokens }

/-- The `getPayment` task (source lines 140-153): exit early when the
invoice is unconfirmed; otherwise subscribe to the past payment with the
invoice's id and fold the terminal event: `confirmed` yields the payment,
`error` and `failed` yield nothing. -/
def getPaymentStep (pastPayment : Nat → String → PastPaymentEvent)
    (lnd : Nat) (invoice : Invoice) : Option PaymentRecord :=
  if !invoice.is_confirmed then Option.none
  else
    match pastPayment lnd invoice.id with
    | PastPaymentEvent.confirmed payment => some payment
    | PastPaymentEvent.error => Option.none
    | PastPaymentEvent.failed => Option.none

/-- Whether a node's past-payment subscription for the given id reports
`confirmed` (the detect predicate of the `getTransfer` task). -/
def transferDetect (pastPayment : Nat → String → PastPaymentEvent)
    (invoiceId : String) (n : ControlledNode) : Bool :=
  match pastPayment n.lnd invoiceId with
  | PastPaymentEvent.confirmed _ => true
  | PastPaymentEvent.error => false
  | PastPaymentEvent.failed => false

/-- The `getTransfer` task (source lines 156-172): exit early when the
invoice is unconfirmed; otherwise detect, among the controlled nodes whose
key differs from the receiving key, one whose own past payment for this
invoice id confirms.  `asyncDetect` yields some confirming element or
nothing; the deterministic `find?` realizes that choice. -/
def getTransferStep (pastPayment : Nat → String → PastPaymentEvent)
    (key : String) (nodes : List ControlledNode) (invoice : Invoice) :
    Option ControlledNode :=
  if !invoice.is_confirmed then Option.none
  else
    (nodes.filter (fun n => n.public_key != key)).find?
      (transferDetect pastPayment invoice.id)

/-- The branch structure of the `details` task (source lines 175-223),
recording which composer collaborator is invoked with which facts:
unconfirmed invoices and node-to-node transfers invoke none. -/
def detailsCall (lnd : Nat) (invoice : Invoice)
    (balancedOpen : Option BalancedOpenProposal) (getNodes : List NodeAlias)
    (getPayment : Option PaymentRecord)
    (getTransfer : Option ControlledNode) : Option ComposerCall :=
  if !invoice.is_confirmed then Option.none
  else if getTransfer.isSome then Option.none
  else
    match balancedOpen with
    | some proposal =>
      some (ComposerCall.balancedOpenMsg lnd proposal.capacity
        proposal.partner_public_key proposal.fee_rate)
    | Option.none =>
      match getPayment with
      | some p =>
        some (ComposerCall.rebalanceMsg lnd p.fee_mtokens p.hops
          invoice.payments invoice.received_mtokens)
      | Option.none =>
        some (ComposerCall.receivedMsg lnd invoice.description
          invoice.payments invoice.received getNodes)

/-- Interpretation of a recorded composer call through the three composer
collaborators. -/
def runComposers (o : Oracles) : ComposerCall → MessageDescriptor
  | ComposerCall.balancedOpenMsg lnd capacity fromKey rate =>
    o.getBalancedOpenMessage lnd capacity fromKey rate
  | ComposerCall.rebalanceMsg lnd fee hops payments received =>
    o.getRebalanceMessage lnd fee hops payments received
  | ComposerCall.receivedMsg lnd description payments received via =>
    o.getReceivedMessage lnd description payments received via

/-- The `details` task: the message descriptor produced by the invoked
composer, if any. -/
def detailsStep (o : Oracles) (lnd : Nat) (invoice : Invoice)
    (balancedOpen : Option BalancedOpenProposal) (getNodes : List NodeAlias)
    (getPayment : Option PaymentRecord)
    (getTransfer : Option ControlledNode) : Option MessageDescriptor :=
  (detailsCall lnd invoice balancedOpen getNodes getPayment
    getTransfer).map (runComposers o)

/-- The underlying indexed map of the JS `Array.prototype.map` callback
`(n, i) => ...`, with a starting index. -/
def mapIndexedFrom (f : Nat → α → β) : Nat → List α → List β
  | _, [] => []
  | k, x :: xs => f k x :: mapIndexedFrom f (k + 1) xs

/-- Indexed map starting at index 0. -/
def mapIndexed (f : Nat → α → β) (l : List α) : List β :=
  mapIndexedFrom f 0 l

/-- The answer randomization of the `quiz` task (source lines 250-266):
swap the answer at index 0 (`answer`, the conventionally correct one) with
the answer at the chosen index (`replace`); every other position keeps its
own element. -/
def randomizeAnswers (qz : List String) (correct : Nat) : List String :=
  mapIndexed
    (fun i n =>
      if i = correct then qz.getD 0 ""
      else if i = 0 then qz.getD correct ""
      else n)
    qz

/-- The `post` task (source lines 226-236): when a descriptor exists, send
the icon and message, appending the escaped from-label suffix exactly when
there is more than one controlled node. -/
def postStep (fromName : String) (uid : Nat) (key : String)
    (nodes : List ControlledNode) (details : Option MessageDescriptor) :
    List DispatchEvent :=
  match details with
  | Option.none => []
  | some d =>
    let receivedOnNode :=
      if nodes.length > [key].length then " - " ++ fromName else ""
    let text := d.icon ++ " " ++ d.message
    [DispatchEvent.text uid (text ++ escape receivedOnNode) sendOptions]

/-- The `quiz` task (source lines 239-269): when the descriptor carries a
quiz whose length is within bounds, send the randomized quiz. -/
def quizStep (rnd : Nat → Nat) (details : Option MessageDescriptor) :
    List DispatchEvent :=
  match details with
  | Option.none => []
  | some d =>
    match d.quiz with
    | Option.none => []
    | some qz =>
      if qz.length < minQuizLength then []
      else if qz.length > maxQuizLength then []
      else
        let correct := rnd qz.length
        [DispatchEvent.quiz (randomizeAnswers qz correct) correct d.title]

/-- The pipeline body after validation: run the four checks, build the
details, then dispatch text followed by quiz.  `Option.none` models a crash
of the `getNodes` task (the invalid dereference of
`resolveChannelAlias`). -/
def runSettled (o : Oracles) (fromName : String) (uid : Nat)
    (invoice : Invoice) (key : String) (lnd : Nat)
    (nodes : List ControlledNode) : Option (List DispatchEvent) :=
  let balancedOpen := balancedOpenStep o.balancedOpenRequest invoice
  match getNodesStep o.getChannel o.getNodeAlias lnd key invoice with
  | Option.none => Option.none
  | some ns =>
    let payment := getPaymentStep o.pastPayment lnd invoice
    let transfer := getTransferStep o.pastPayment key nodes invoice
    let details := detailsStep o lnd invoice balancedOpen ns payment transfer
    some (postStep fromName uid key nodes details ++ quizStep o.rnd details)

/-- The `validate` task (source lines 68-101): the first missing required
field produces a structured `(400, reason)` error. -/
def validate (a : Args) : Option (Nat × String) :=
  if a.fromName.isNone then
    some (400, "ExpectedFromNameToPostSettledInvoice")
  else if a.id.isNone then
    some (400, "ExpectedUserIdNumberToPostSettledInvoice")
  else if a.invoice.isNone then
    some (400, "ExpectedInvoiceToPostSettledInvoice")
  else if a.key.isNone then
    some (400, "ExpectedNodeIdentityKeyToPostSettledInvoice")
  else if a.lnd.isNone then
    some (400, "ExpectedLndObjectToPostSettledInvoice")
  else if a.nodes.isNone then
    some (400, "ExpectedArrayOfNodesToPostSettledInvoice")
  else if a.quiz.isNone then
    some (400, "ExpectedSendQuizFunctionToPostSettledInvoice")
  else if a.send.isNone then
    some (400, "ExpectedSendFunctionToPostSettledInvoice")
  else Option.none

/-- The distinct validation reason tokens, in source order. -/
def reasonTokens : List String :=
  ["ExpectedFromNameToPostSettledInvoice",
   "ExpectedUserIdNumberToPostSettledInvoice",
   "ExpectedInvoiceToPostSettledInvoice",
   "ExpectedNodeIdentityKeyToPostSettledInvoice",
   "ExpectedLndObjectToPostSettledInvoice",
   "ExpectedArrayOfNodesToPostSettledInvoice",
   "ExpectedSendQuizFunctionToPostSettledInvoice",
   "ExpectedSendFunctionToPostSettledInvoice"]

/-- The whole pipeline: a validation failure is returned at once with no
side effect; otherwise the task graph runs and the dispatch trace is the
outcome.  The outer `Option.none` models a crash (see `runSettled`); the
final match arm is unreachable because passing validation means every field
is present. -/
def postSettledInvoice (o : Oracles) (a : Args) :
    Option (Except (Nat × String) (List DispatchEvent)) :=
  match validate a with
  | some e => some (Except.error e)
  | Option.none =>
    match a.fromName, a.id, a.invoice, a.key, a.lnd, a.nodes with
    | some fromName, some uid, some invoice, some key, some lnd,
        some nodes =>
      (runSettled o fromName uid invoice key lnd nodes).map Except.ok
    | _, _, _, _, _, _ => Option.none

/-- The argument object with every required field present. -/
def fullArgs (fromName : String) (uid : Nat) (invoice : Invoice)
    (key : String) (lnd : Nat) (nodes : List ControlledNode) : Args :=
  { fromName := some fromName, id := some uid, invoice := some invoice,
    key := some key, lnd := some lnd, nodes := some nodes,
    quiz := some (), send := some () }

/-- Whether a dispatch event is a text send. -/
def isTextEvent : DispatchEvent → Bool
  | DispatchEvent.text _ _ _ => true
  | DispatchEvent.quiz _ _ _ => false

/-- Whether a dispatch event is a quiz send. -/
def isQuizEvent : DispatchEvent → Bool
  | DispatchEvent.text _ _ _ => false
  | DispatchEvent.quiz _ _ _ => true

/-- Fixture: a confirmed payment contribution through one channel. -/
def pay1 : PaymentContribution :=
  { in_channel := "0x1x2", mtokens := "1000", tokens := 1,
    is_confirmed := true, is_canceled := false, is_held := false,
    pending_index := Option.none, total_mtokens := Option.none,
    messages := [] }

/-- Fixture: a confirmed invoice with no payment contributions. -/
def inv1 : Invoice :=
  { description := "invoice", id := "hash1", is_confirmed := true,
    is_push := true, confirmed_at := some "2024-01-01", payments := [],
    received := 9, received_mtokens := "9000" }

/-- Fixture: an invoice that has not settled yet, funded through one
channel. -/
def invUnconfirmed : Invoice :=
  { description := "pending", id := "hash2", is_confirmed := false,
    is_push := false, confirmed_at := Option.none, payments := [pay1],
    received := 1, received_mtokens := "1000" }

/-- Fixture: a balanced open proposal. -/
def bo1 : BalancedOpenProposal :=
  { capacity := 100, partner_public_key := "pk2", fee_rate := 3 }

/-- Fixture: a settled past payment record. -/
def pr1 : PaymentRecord := { fee_mtokens := "21", hops := ["hop"] }

/-- Fixture: the receiving node itself. -/
def node1 : ControlledNode :=
  { fromLabel := "alpha", lnd := 1, public_key := "mykey" }

/-- Fixture: a second controlled node with a different key. -/
def node2 : ControlledNode :=
  { fromLabel := "beta", lnd := 2, public_key := "otherkey" }

/-- Fixture: a channel lookup that always fails. -/
def gFail : Nat → String → Except Unit Channel := fun _ _ => Except.error ()

/-- Fixture: a channel with one foreign policy. -/
def chPeer : Channel := { policies := [{ public_key := "peerkey" }] }

/-- Fixture: a channel both of whose policies carry the receiving key. -/
def chSelf : Channel :=
  { policies := [{ public_key := "mykey" }, { public_key := "mykey" }] }

/-- Fixture: a channel lookup that always finds a channel with one foreign
policy. -/
def gOkPeer : Nat → String → Except Unit Channel :=
  fun _ _ => Except.ok chPeer

/-- Fixture: a channel lookup whose policies all carry the receiving
key. -/
def gSelfOnly : Nat → String → Except Unit Channel :=
  fun _ _ => Except.ok chSelf

/-- Fixture: an alias resolver. -/
def gaFix : Nat → String → NodeAlias :=
  fun _ pk => { id := pk, aliasLabel := "peerAlias" }

/-- Fixture: a descriptor carrying a two-answer quiz but no title. -/
def dNoTitle : MessageDescriptor :=
  { icon := "I", message := "M", title := Option.none,
    quiz := some ["a", "b"] }

/-- Fixture: a descriptor carrying a three-answer quiz and a title. -/
def dTitled : MessageDescriptor :=
  { icon := "I", message := "M", title := some "T",
    quiz := some ["a", "b", "c"] }

/-- Fixture: collaborators for a plain received invoice whose composers all
return the untitled quiz descriptor; every past payment fails and every
channel lookup fails. -/
def oQuiz : Oracles :=
  { balancedOpenRequest := fun _ => Option.none
    getChannel := gFail
    getNodeAlias := gaFix
    pastPayment := fun _ _ => PastPaymentEvent.failed
    getBalancedOpenMessage := fun _ _ _ _ => dNoTitle
    getRebalanceMessage := fun _ _ _ _ _ => dNoTitle
    getReceivedMessage := fun _ _ _ _ _ => dNoTitle
    rnd := fun _ => 0 }

/-- Fixture: collaborators where every past payment subscription confirms,
so any other controlled node detects a transfer. -/
def oTransfer : Oracles :=
  { oQuiz with pastPayment := fun _ _ => PastPaymentEvent.confirmed pr1 }

/-- Fixture: the full argument object of a plain received invoice on a
single controlled node. -/
def aQuiz : Args := fullArgs "myNode" 1 inv1 "mykey" 0 []

/-- Fixture: the dispatch trace the `oQuiz` collaborators produce on
`aQuiz`: one text send, then one quiz send without a question. -/
def traceQuiz : List DispatchEvent :=
  [DispatchEvent.text 1 "I M" sendOptions,
   DispatchEvent.quiz ["a", "b"] 0 Option.none]

/-- Fixture: an argument object whose `from` field is absent while every
other field is present. -/
def aMissingFrom : Args :=
  { fromName := Option.none, id := some 1, invoice := some inv1,
    key := some "mykey", lnd := some 0, nodes := some [],
    quiz := some (), send := some () }

/-- Helper: `getD` agrees with `get` inside the bounds. -/
lemma getD_eq_get (l : List α) (i : Nat) (d : α) (h : i < l.length) :
    l.getD i d = l.get ⟨i, h⟩ := by
  simp [List.getD_eq_getElem?_getD, List.getElem?_eq_getElem h]

/-- Helper: `getD` falls back to the default outside the bounds. -/
lemma getD_of_le (l : List α) (i : Nat) (d : α) (h : l.length ≤ i) :
    l.getD i d = d := by
  simp [List.getD_eq_getElem?_getD, List.getElem?_eq_none h]

/-- Helper: indexed map preserves length. -/
lemma length_mapIndexedFrom (f : Nat → α → β) :
    ∀ (k : Nat) (l : List α), (mapIndexedFrom f k l).length = l.length := by
  intro k l
  induction l generalizing k with
  | nil => rfl
  | cons x xs ih => simp [mapIndexedFrom, ih]

/-- Helper: the element of an indexed map. -/
lemma get_mapIndexedFrom (f : Nat → α → β) :
    ∀ (k : Nat) (l : List α) (i : Nat) (hi : i < l.length)
      (hi2 : i < (mapIndexedFrom f k l).length),
      (mapIndexedFrom f k l).get ⟨i, hi2⟩ = f (k + i) (l.get ⟨i, hi⟩) := by
  intro k l
  induction l generalizing k with
  | nil => intro i hi hi2; simp at hi
  | cons x xs ih =>
    intro i hi hi2
    cases i with
    | zero => simp [mapIndexedFrom]
    | succ j =>
      have hj : j < xs.length := by simpa using hi
      have hj2 : j < (mapIndexedFrom f (k + 1) xs).length := by
        rw [length_mapIndexedFrom]; exact hj
      calc (mapIndexedFrom f k (x :: xs)).get ⟨j + 1, hi2⟩
          = (mapIndexedFrom f (k + 1) xs).get ⟨j, hj2⟩ := rfl
        _ = f (k + 1 + j) (xs.get ⟨j, hj⟩) := ih (k + 1) j hj hj2
        _ = f (k + (j + 1)) ((x :: xs).get ⟨j + 1, hi⟩) := by
            rw [show k + 1 + j = k + (j + 1) from by omega]; rfl

/-- Helper: the randomizer preserves length. -/
lemma length_randomizeAnswers (qz : List String) (c : Nat) :
    (randomizeAnswers qz c).length = qz.length := by
  simp [randomizeAnswers, mapIndexed, length_mapIndexedFrom]

/-- Helper: the element of the randomizer's output. -/
lemma get_randomizeAnswers (qz : List String) (c : Nat) (i : Nat)
    (hi : i < qz.length) (hi2 : i < (randomizeAnswers qz c).length) :
    (randomizeAnswers qz c).get ⟨i, hi2⟩ =
      if i = c then qz.getD 0 ""
      else if i = 0 then qz.getD c ""
      else qz.get ⟨i, hi⟩ := by
  unfold randomizeAnswers mapIndexed
  rw [get_mapIndexedFrom _ 0 qz i hi]
  simp

/-- Helper: choosing index 0 leaves the answer list unchanged. -/
lemma randomizeAnswers_zero (qz : List String) : randomizeAnswers qz 0 = qz := by
  apply List.ext_get (by simp [length_randomizeAnswers])
  intro n h1 h2
  rw [get_randomizeAnswers qz 0 n h2 h1]
  by_cases hn : n = 0
  · subst hn
    rw [if_pos rfl, getD_eq_get qz 0 "" h2]
  · simp [hn]

/-- Helper: with a nonzero in-range target the randomizer's output is the
replaced head consed onto the tail with the head written at the target. -/
lemma randomizeAnswers_cons_succ (q0 : String) (rest : List String) (k : Nat)
    (hk : k < rest.length) :
    randomizeAnswers (q0 :: rest) (k + 1) =
      rest.get ⟨k, hk⟩ :: rest.set k q0 := by
  apply List.ext_get (by simp [length_randomizeAnswers])
  intro n h1 h2
  have hn : n < (q0 :: rest).length := by
    simpa [length_randomizeAnswers] using h1
  rw [get_randomizeAnswers _ _ n hn h1]
  cases n with
  | zero =>
    rw [if_neg (by omega : ¬(0 = k + 1)), if_pos rfl, List.getD_cons_succ,
      getD_eq_get rest k "" hk]
    rfl
  | succ j =>
    have hj : j < rest.length := by simpa using hn
    by_cases hjk : j = k
    · subst hjk
      rw [if_pos rfl, List.getD_cons_zero]
      have hjs : j < (rest.set j q0).length := by
        rw [List.length_set]; exact hj
      have h3 : (rest.get ⟨j, hk⟩ :: rest.set j q0).get ⟨j + 1, h2⟩ =
          (rest.set j q0).get ⟨j, hjs⟩ := rfl
      rw [h3]
      simp [List.get_eq_getElem, List.getElem_set]
    · rw [if_neg (by omega : ¬(j + 1 = k + 1)),
        if_neg (by omega : ¬(j + 1 = 0))]
      have hjs : j < (rest.set k q0).length := by
        rw [List.length_set]; exact hj
      have h3 : (rest.get ⟨k, hk⟩ :: rest.set k q0).get ⟨j + 1, h2⟩ =
          (rest.set k q0).get ⟨j, hjs⟩ := rfl
      rw [h3]
      have hkj : ¬(k = j) := fun h => hjk h.symm
      simp [List.get_eq_getElem, List.getElem_set, hkj]

/-- Helper: writing the head at position `k` of the tail and pulling the
element at `k` to the front is a permutation. -/
lemma cons_set_perm (rest : List String) (k : Nat) (hk : k < rest.length)
    (q0 : String) :
    (rest.get ⟨k, hk⟩ :: rest.set k q0).Perm (q0 :: rest) := by
  have hdecomp :
      rest = rest.take k ++ rest.get ⟨k, hk⟩ :: rest.drop (k + 1) := by
    conv_lhs => rw [← List.take_append_drop k rest]
    rw [List.drop_eq_getElem_cons hk]
    rfl
  have hset : rest.set k q0 = rest.take k ++ q0 :: rest.drop (k + 1) :=
    List.set_eq_take_cons_drop q0 hk
  rw [hset]
  conv_rhs => rw [hdecomp]
  calc (rest.get ⟨k, hk⟩ :: (rest.take k ++ q0 :: rest.drop (k + 1)))
      |>.Perm (rest.get ⟨k, hk⟩ :: q0 :: (rest.take k ++ rest.drop (k + 1))) :=
        List.Perm.cons _ List.perm_middle
    _ |>.Perm (q0 :: rest.get ⟨k, hk⟩ :: (rest.take k ++ rest.drop (k + 1))) :=
        List.Perm.swap q0 (rest.get ⟨k, hk⟩) _
    _ |>.Perm (q0 :: (rest.take k ++ rest.get ⟨k, hk⟩ :: rest.drop (k + 1))) :=
        List.Perm.cons q0 List.perm_middle.symm

/-- Helper: the escape scan is the per-character expansion, each reserved
character becoming a backslash-prefixed pair and every other character
passing through alone. -/
lemma escapeList_eq_flatten (l : List Char) :
    escapeList l =
      (l.map fun c => if isReservedChar c then ['\\', c] else [c]).flatten := by
  induction l with
  | nil => rfl
  | cons c rest ih =>
    by_cases hc : isReservedChar c
    · simp [escapeList, hc, ih]
    · simp [escapeList, hc, ih]

/-- Helper: the quiz task dispatches nothing or exactly one quiz event. -/
lemma quizStep_shape (rnd : Nat → Nat) (det : Option MessageDescriptor) :
    quizStep rnd det = [] ∨
      ∃ ans c q, quizStep rnd det = [DispatchEvent.quiz ans c q] := by
  cases det with
  | none => exact Or.inl rfl
  | some d =>
    obtain ⟨icon, msg, title, qzf⟩ := d
    cases qzf with
    | none => exact Or.inl rfl
    | some qz =>
      by_cases h1 : qz.length < minQuizLength
      · exact Or.inl (by simp [quizStep, h1])
      · by_cases h2 : qz.length > maxQuizLength
        · exact Or.inl (by simp [quizStep, h1, h2])
        · exact Or.inr ⟨randomizeAnswers qz (rnd qz.length), rnd qz.length,
            title, by simp [quizStep, h1, h2]⟩

/-- Helper: a present transfer detection short-circuits the details task. -/
lemma detailsCall_none_of_transfer (lnd : Nat) (inv : Invoice)
    (bo : Option BalancedOpenProposal) (ns : List NodeAlias)
    (pay : Option PaymentRecord) (tr : Option ControlledNode)
    (htr : tr.isSome = true) :
    detailsCall lnd inv bo ns pay tr = Option.none := by
  unfold detailsCall
  cases hc : inv.is_confirmed <;> simp [hc, htr]

/-- Helper: an unconfirmed invoice short-circuits the details task. -/
lemma detailsCall_none_of_unconfirmed (lnd : Nat) (inv : Invoice)
    (bo : Option BalancedOpenProposal) (ns : List NodeAlias)
    (pay : Option PaymentRecord) (tr : Option ControlledNode)
    (hconf : inv.is_confirmed = false) :
    detailsCall lnd inv bo ns pay tr = Option.none := by
  unfold detailsCall
  simp [hconf]

/-- Helper: on an argument object with every field present the pipeline is
the task graph body. -/
lemma postSettledInvoice_fullArgs (o : Oracles) (f : String) (uid : Nat)
    (inv : Invoice) (key : String) (lnd : Nat)
    (nodes : List ControlledNode) :
    postSettledInvoice o (fullArgs f uid inv key lnd nodes) =
      (runSettled o f uid inv key lnd nodes).map Except.ok := rfl

/-- Helper: when the details task invokes no composer, a completed run
dispatches nothing. -/
lemma trace_eq_nil (o : Oracles) (f : String) (uid : Nat) (inv : Invoice)
    (key : String) (lnd : Nat) (nodes : List ControlledNode)
    (hnone : ∀ ns, detailsCall lnd inv
      (balancedOpenStep o.balancedOpenRequest inv) ns
      (getPaymentStep o.pastPayment lnd inv)
      (getTransferStep o.pastPayment key nodes inv) = Option.none) :
    ∀ trace, postSettledInvoice o (fullArgs f uid inv key lnd nodes) =
      some (Except.ok trace) → trace = [] := by
  intro trace h
  rw [postSettledInvoice_fullArgs] at h
  unfold runSettled at h
  cases hg : getNodesStep o.getChannel o.getNodeAlias lnd key inv with
  | none => rw [hg] at h; simp at h
  | some ns =>
    rw [hg] at h
    simp only [detailsStep, hnone ns, Option.map_none', Option.map_some'] at h
    simp only [postStep, quizStep, List.nil_append] at h
    simpa using h.symm

/-- C1: for every confirmed invoice the details task decides the category
in the fixed precedence order Transfer, then BalancedOpen, then Rebalance,
then Received with the resolved aliases; in particular when both the
rebalance record and the balanced-open proposal are present and no transfer
is detected, the balanced-open composer is invoked, never the rebalance
one.  The four check results are joined before the details task runs, so
arrival order cannot influence this. -/
theorem c1_precedence (lnd : Nat) (inv : Invoice)
    (bo : Option BalancedOpenProposal) (ns : List NodeAlias)
    (pay : Option PaymentRecord) (tr : Option ControlledNode)
    (hconf : inv.is_confirmed = true) :
    (tr.isSome = true → detailsCall lnd inv bo ns pay tr = Option.none)
    ∧ (tr = Option.none → ∀ p, bo = some p →
        detailsCall lnd inv bo ns pay tr =
          some (ComposerCall.balancedOpenMsg lnd p.capacity
            p.partner_public_key p.fee_rate))
    ∧ (tr = Option.none → bo = Option.none → ∀ pr, pay = some pr →
        detailsCall lnd inv bo ns pay tr =
          some (ComposerCall.rebalanceMsg lnd pr.fee_mtokens pr.hops
            inv.payments inv.received_mtokens))
    ∧ (tr = Option.none → bo = Option.none → pay = Option.none →
        detailsCall lnd inv bo ns pay tr =
          some (ComposerCall.receivedMsg lnd inv.description inv.payments
            inv.received ns))
    ∧ (tr = Option.none → bo.isSome = true → pay.isSome = true →
        ∃ p, bo = some p ∧ detailsCall lnd inv bo ns pay tr =
          some (ComposerCall.balancedOpenMsg lnd p.capacity
            p.partner_public_key p.fee_rate)) := by
  refine ⟨?_, ?_, ?_, ?_, ?_⟩
  · intro htr
    exact detailsCall_none_of_transfer lnd inv bo ns pay tr htr
  · intro htr p hbo
    subst htr hbo
    simp [detailsCall, hconf]
  · intro htr hbo pr hpay
    subst htr hbo hpay
    simp [detailsCall, hconf]
  · intro htr hbo hpay
    subst htr hbo hpay
    simp [detailsCall, hconf]
  · intro htr hbo hpay
    obtain ⟨p, hp⟩ := Option.isSome_iff_exists.mp hbo
    subst htr hp
    exact ⟨p, rfl, by simp [detailsCall, hconf]⟩

/-- Witness for C1: a concrete confirmed invoice with both a balanced open
proposal and a rebalance record present, and no transfer, classifies as a
balanced open. -/
theorem c1_precedence_witness :
    inv1.is_confirmed = true ∧
    ∃ p, (some bo1) = some p ∧
      detailsCall 0 inv1 (some bo1) [] (some pr1) Option.none =
        some (ComposerCall.balancedOpenMsg 0 p.capacity
          p.partner_public_key p.fee_rate) :=
  ⟨rfl,
   (c1_precedence 0 inv1 (some bo1) [] (some pr1) Option.none
     rfl).2.2.2.2 rfl rfl rfl⟩

/-- Counterexample to C2: on an unconfirmed invoice funded through one
channel, the node-alias check does not short-circuit: its outcome still
depends on the channel lookup collaborator (a failing lookup and a
succeeding one give different results), so its network-dependent logic
executes even though `is_confirmed` is false. -/
theorem c2_counterexample :
    invUnconfirmed.is_confirmed = false ∧
    getNodesStep gFail gaFix 0 "mykey" invUnconfirmed ≠
      getNodesStep gOkPeer gaFix 0 "mykey" invUnconfirmed :=
  ⟨rfl, by decide⟩

/-- C2 amended: for every invoice with `is_confirmed` false, the
balanced-open, rebalance and transfer checks short-circuit to an absent
result; the node-alias resolution runs unconditionally but its result is
unused because the details task yields nothing, so the overall
classification is `None` and no dispatch occurs on a completed run. -/
theorem c2_amended (o : Oracles) (f : String) (uid : Nat) (inv : Invoice)
    (key : String) (lnd : Nat) (nodes : List ControlledNode)
    (hconf : inv.is_confirmed = false) :
    balancedOpenStep o.balancedOpenRequest inv = Option.none
    ∧ getPaymentStep o.pastPayment lnd inv = Option.none
    ∧ getTransferStep o.pastPayment key nodes inv = Option.none
    ∧ (∀ bo ns pay tr, detailsCall lnd inv bo ns pay tr = Option.none)
    ∧ (∀ trace, postSettledInvoice o (fullArgs f uid inv key lnd nodes) =
        some (Except.ok trace) → trace = []) := by
  refine ⟨?_, ?_, ?_, ?_, ?_⟩
  · simp [balancedOpenStep, hconf]
  · simp [getPaymentStep, hconf]
  · simp [getTransferStep, hconf]
  · intro bo ns pay tr
    exact detailsCall_none_of_unconfirmed lnd inv bo ns pay tr hconf
  · exact trace_eq_nil o f uid inv key lnd nodes
      (fun ns => detailsCall_none_of_unconfirmed lnd inv _ ns _ _ hconf)

/-- Witness for C2 amended: the three guarded checks are absent on a
concrete unconfirmed invoice. -/
theorem c2_amended_witness :
    invUnconfirmed.is_confirmed = false ∧
    getPaymentStep oQuiz.pastPayment 0 invUnconfirmed = Option.none ∧
    getTransferStep oQuiz.pastPayment "mykey" [node2] invUnconfirmed =
      Option.none :=
  ⟨rfl,
   (c2_amended oQuiz "n" 1 invUnconfirmed "mykey" 0 [node2] rfl).2.1,
   (c2_amended oQuiz "n" 1 invUnconfirmed "mykey" 0 [node2] rfl).2.2.1⟩

/-- C3: for every confirmed invoice on which the transfer probe detects a
payment by another controlled node, the details task invokes no composer
collaborator and a completed run dispatches neither a text message nor a
quiz. -/
theorem c3_transfer (o : Oracles) (f : String) (uid : Nat) (inv : Invoice)
    (key : String) (lnd : Nat) (nodes : List ControlledNode)
    (_hconf : inv.is_confirmed = true)
    (htr : (getTransferStep o.pastPayment key nodes inv).isSome = true) :
    (∀ bo ns pay, detailsCall lnd inv bo ns pay
      (getTransferStep o.pastPayment key nodes inv) = Option.none)
    ∧ (∀ trace, postSettledInvoice o (fullArgs f uid inv key lnd nodes) =
        some (Except.ok trace) → trace = []) := by
  constructor
  · intro bo ns pay
    exact detailsCall_none_of_transfer _ _ _ _ _ _ htr
  · exact trace_eq_nil o f uid inv key lnd nodes
      (fun ns => detailsCall_none_of_transfer _ _ _ _ _ _ htr)

/-- Witness for C3: with a second controlled node whose past payment
confirms, the concrete run completes with an empty dispatch trace and no
composer call. -/
theorem c3_transfer_witness :
    inv1.is_confirmed = true ∧
    (getTransferStep oTransfer.pastPayment "mykey" [node2] inv1).isSome =
      true ∧
    detailsCall 0 inv1 Option.none [] Option.none
      (getTransferStep oTransfer.pastPayment "mykey" [node2] inv1) =
      Option.none ∧
    postSettledInvoice oTransfer (fullArgs "myNode" 1 inv1 "mykey" 0
      [node2]) = some (Except.ok []) :=
  ⟨rfl, rfl,
   (c3_transfer oTransfer "myNode" 1 inv1 "mykey" 0 [node2] rfl rfl).1
     Option.none [] Option.none,
   rfl⟩

/-- C4: for every answer list of length between 2 and 10 and every chosen
in-range index, the randomizer transposes exactly positions 0 and
`correct`: the original head sits at `correct`, the original occupant of
`correct` sits at 0, every other position is unchanged, and the output is
a permutation of the input (same multiset). -/
theorem c4_randomizer (qz : List String) (c : Nat)
    (h2 : 2 ≤ qz.length) (h10 : qz.length ≤ 10) (hc : c < qz.length) :
    (randomizeAnswers qz c).length = qz.length
    ∧ (randomizeAnswers qz c).getD c "" = qz.getD 0 ""
    ∧ (randomizeAnswers qz c).getD 0 "" = qz.getD c ""
    ∧ (∀ i, i ≠ 0 → i ≠ c →
        (randomizeAnswers qz c).getD i "" = qz.getD i "")
    ∧ (randomizeAnswers qz c).Perm qz
    ∧ Multiset.ofList (randomizeAnswers qz c) = Multiset.ofList qz := by
  have hlen := length_randomizeAnswers qz c
  have h0 : 0 < qz.length := by omega
  have hperm : (randomizeAnswers qz c).Perm qz := by
    cases c with
    | zero => rw [randomizeAnswers_zero]
    | succ k =>
      cases qz with
      | nil => simp at h2
      | cons q0 rest =>
        have hk : k < rest.length := by simpa using hc
        rw [randomizeAnswers_cons_succ q0 rest k hk]
        exact cons_set_perm rest k hk q0
  refine ⟨hlen, ?_, ?_, ?_, hperm, Quot.sound hperm⟩
  · have hc2 : c < (randomizeAnswers qz c).length := by rw [hlen]; exact hc
    rw [getD_eq_get _ c "" hc2, get_randomizeAnswers qz c c hc hc2,
      if_pos rfl]
  · have h02 : 0 < (randomizeAnswers qz c).length := by rw [hlen]; exact h0
    rw [getD_eq_get _ 0 "" h02, get_randomizeAnswers qz c 0 h0 h02]
    by_cases hc0 : 0 = c
    · rw [if_pos hc0, hc0]
    · rw [if_neg hc0, if_pos rfl]
  · intro i hi0 hic
    by_cases hi : i < qz.length
    · have hi2 : i < (randomizeAnswers qz c).length := by rw [hlen]; exact hi
      rw [getD_eq_get _ i "" hi2, get_randomizeAnswers qz c i hi hi2,
        if_neg hic, if_neg hi0, getD_eq_get qz i "" hi]
    · rw [getD_of_le _ i "" (by omega), getD_of_le qz i "" (by omega)]

/-- Witness for C4: randomizing a concrete three-answer list with target
index 2 puts the original head at index 2 and yields a permutation. -/
theorem c4_randomizer_witness :
    (randomizeAnswers ["a", "b", "c"] 2).getD 2 "" = "a" ∧
    (randomizeAnswers ["a", "b", "c"] 2).Perm ["a", "b", "c"] :=
  ⟨(c4_randomizer ["a", "b", "c"] 2 (by decide) (by decide)
      (by decide)).2.1,
   (c4_randomizer ["a", "b", "c"] 2 (by decide) (by decide)
      (by decide)).2.2.2.2.1⟩

/-- Counterexample to C5: the quiz task never checks the title.  On a
concrete run whose composer returns a descriptor with a two-answer quiz
and no title, the quiz is still dispatched (with an absent question), so
"a quiz is dispatched only if the descriptor carries a title" fails. -/
theorem c5_counterexample :
    dNoTitle.title = Option.none ∧
    postSettledInvoice oQuiz aQuiz = some (Except.ok traceQuiz) ∧
    isQuizEvent (traceQuiz.get ⟨1, by decide⟩) = true :=
  ⟨rfl, rfl, rfl⟩

/-- C5 amended: a quiz is dispatched exactly when the descriptor carries a
quiz answer list whose length lies in the closed interval from 2 to 10 —
the title is not required.  Out-of-range lengths silently suppress the
quiz (the task returns an empty dispatch, raising no error), and whenever
a descriptor exists the text message is still sent. -/
theorem c5_amended (rnd : Nat → Nat) (d : MessageDescriptor) :
    (quizStep rnd (some d) ≠ [] ↔
      ∃ qz, d.quiz = some qz ∧ minQuizLength ≤ qz.length ∧
        qz.length ≤ maxQuizLength)
    ∧ quizStep rnd Option.none = []
    ∧ (∀ f uid key nodes, ∃ t, postStep f uid key nodes (some d) =
        [DispatchEvent.text uid t sendOptions]) := by
  obtain ⟨icon, msg, title, qzf⟩ := d
  refine ⟨?_, rfl, ?_⟩
  · cases qzf with
    | none => simp [quizStep]
    | some qz =>
      by_cases h1 : qz.length < minQuizLength
      · constructor
        · intro hne
          exact (hne (by simp [quizStep, h1])).elim
        · rintro ⟨qz', hq, hmin, hmax⟩
          injection hq with hq
          subst hq
          exact absurd (lt_of_le_of_lt hmin h1) (lt_irrefl _)
      · by_cases hup : qz.length > maxQuizLength
        · constructor
          · intro hne
            exact (hne (by simp [quizStep, h1, hup])).elim
          · rintro ⟨qz', hq, hmin, hmax⟩
            injection hq with hq
            subst hq
            exact absurd (lt_of_lt_of_le hup hmax) (lt_irrefl _)
        · constructor
          · intro _
            exact ⟨qz, rfl, not_lt.mp h1, not_lt.mp hup⟩
          · intro _
            simp [quizStep, h1, hup]
  · intro f uid key nodes
    exact ⟨_, rfl⟩

/-- Witness for C5 amended: a titled three-answer quiz is dispatched. -/
theorem c5_amended_witness :
    quizStep (fun _ => 1) (some dTitled) ≠ [] :=
  (c5_amended (fun _ => 1) dTitled).1.mpr
    ⟨["a", "b", "c"], rfl, by decide, by decide⟩

/-- C6: every dispatched text is the unescaped icon-space-message body,
followed by the escaped from-label suffix exactly when more than one
controlled node exists; the escape expands each character of its input,
backslash-prefixing exactly the reserved MarkdownV2 characters. -/
theorem c6_text (f : String) (uid : Nat) (key : String)
    (nodes : List ControlledNode) (d : MessageDescriptor) :
    postStep f uid key nodes (some d) =
      [DispatchEvent.text uid
        ((d.icon ++ " " ++ d.message) ++
          (if nodes.length > 1 then escape (" - " ++ f) else ""))
        sendOptions]
    ∧ (∀ s : String, (escape s).data =
        (s.data.map fun c =>
          if isReservedChar c then ['\\', c] else [c]).flatten)
    ∧ escape "" = "" := by
  refine ⟨?_, ?_, rfl⟩
  · by_cases h : nodes.length > 1
    · have h2 : nodes.length > [key].length := by simpa using h
      simp [postStep, h2, h]
    · have h2 : ¬nodes.length > [key].length := by simpa using h
      have hesc : escape "" = "" := rfl
      simp [postStep, h2, h, hesc, String.append_empty]
  · intro s
    calc (escape s).data = escapeList s.data := rfl
      _ = (s.data.map fun c =>
            if isReservedChar c then ['\\', c] else [c]).flatten :=
        escapeList_eq_flatten s.data

/-- Witness for C6: with two controlled nodes and a from-label holding an
underscore, the dispatched text keeps the body unescaped and
backslash-prefixes the hyphen and underscore of the suffix. -/
theorem c6_text_witness :
    postStep "a_b" 3 "mykey" [node1, node2] (some dTitled) =
      [DispatchEvent.text 3 "I M \\- a\\_b" sendOptions] :=
  (c6_text "a_b" 3 "mykey" [node1, node2] dTitled).1

/-- C7: probe absence never becomes a pipeline error: a failing channel
lookup falls back to the identifier-as-alias pair, a past-payment
subscription ending in `error` or `failed` folds into "no rebalance", and
when every other node's subscription ends so, the transfer probe folds
into "no transfer" — all three produce ordinary absent values, not
errors. -/
theorem c7_probe_absence (g : Nat → String → Except Unit Channel)
    (ga : Nat → String → NodeAlias) (pe : Nat → String → PastPaymentEvent)
    (lnd : Nat) (key chan : String) (inv : Invoice)
    (nodes : List ControlledNode)
    (hfail : g lnd chan = Except.error ())
    (hpe : pe lnd inv.id = PastPaymentEvent.error ∨
      pe lnd inv.id = PastPaymentEvent.failed)
    (hall : ∀ n ∈ nodes.filter (fun n => n.public_key != key),
      transferDetect pe inv.id n = false) :
    resolveChannelAlias g ga lnd key chan =
      some { id := chan, aliasLabel := chan }
    ∧ getPaymentStep pe lnd inv = Option.none
    ∧ getTransferStep pe key nodes inv = Option.none := by
  refine ⟨?_, ?_, ?_⟩
  · unfold resolveChannelAlias
    rw [hfail]
  · unfold getPaymentStep
    cases hc : inv.is_confirmed
    · simp
    · cases hpe with
      | inl h => simp [h]
      | inr h => simp [h]
  · cases hc : inv.is_confirmed
    · simp [getTransferStep, hc]
    · simp only [getTransferStep, hc, Bool.not_true, Bool.false_eq_true,
        if_false]
      rw [List.find?_eq_none]
      intro x hx
      simp [hall x hx]

/-- Witness for C7: a concrete failing lookup falls back, and concrete
terminal `failed` events yield no rebalance and no transfer. -/
theorem c7_probe_absence_witness :
    gFail 0 "61x1" = Except.error () ∧
    resolveChannelAlias gFail gaFix 0 "mykey" "61x1" =
      some { id := "61x1", aliasLabel := "61x1" } ∧
    getPaymentStep oQuiz.pastPayment 0 inv1 = Option.none ∧
    getTransferStep oQuiz.pastPayment "mykey" [node2] inv1 =
      Option.none := by
  have h := c7_probe_absence gFail gaFix oQuiz.pastPayment 0 "mykey" "61x1"
    inv1 [node2] rfl (Or.inr rfl) (by decide)
  exact ⟨rfl, h.1, h.2.1, h.2.2⟩

/-- C10: when a channel lookup succeeds, the code dereferences the first
policy whose public key differs from the receiving key without checking
that one exists: if every policy carries the receiving key the access is
invalid (no fallback applies), and a safe completion is guaranteed exactly
by the precondition that some policy carries a different key. -/
theorem c10_policy_deref (g : Nat → String → Except Unit Channel)
    (ga : Nat → String → NodeAlias) (lnd : Nat) (key chan : String)
    (ch : Channel) (hok : g lnd chan = Except.ok ch) :
    ((∀ p ∈ ch.policies, p.public_key = key) →
      resolveChannelAlias g ga lnd key chan = Option.none)
    ∧ ((∃ p ∈ ch.policies, p.public_key ≠ key) →
      (resolveChannelAlias g ga lnd key chan).isSome = true) := by
  constructor
  · intro hall
    unfold resolveChannelAlias
    rw [hok]
    show (match ch.policies.find? (fun (n : Policy) => n.public_key != key) with
      | Option.none => Option.none
      | some peer => some (ga lnd peer.public_key)) = Option.none
    have hf : ch.policies.find? (fun n => n.public_key != key) =
        Option.none := by
      rw [List.find?_eq_none]
      intro x hx
      simp [hall x hx]
    rw [hf]
  · rintro ⟨p, hp, hne⟩
    unfold resolveChannelAlias
    rw [hok]
    show (match ch.policies.find? (fun (n : Policy) => n.public_key != key) with
      | Option.none => Option.none
      | some peer => some (ga lnd peer.public_key)).isSome = true
    cases hf : ch.policies.find? (fun n => n.public_key != key) with
    | none =>
      have hnone := List.find?_eq_none.mp hf p hp
      simp only [bne_iff_ne, ne_eq, not_not] at hnone
      exact absurd hnone hne
    | some peer => rfl

/-- Witness for C10: a channel whose two policies both carry the receiving
key makes the resolution invalid, while a channel with a foreign policy
completes. -/
theorem c10_policy_deref_witness :
    gSelfOnly 0 "61x1" = Except.ok chSelf ∧
    resolveChannelAlias gSelfOnly gaFix 0 "mykey" "61x1" = Option.none ∧
    (resolveChannelAlias gOkPeer gaFix 0 "mykey" "61x1").isSome = true :=
  ⟨rfl,
   (c10_policy_deref gSelfOnly gaFix 0 "mykey" "61x1" chSelf rfl).1
     (by decide),
   (c10_policy_deref gOkPeer gaFix 0 "mykey" "61x1" chPeer rfl).2
     ⟨{ public_key := "peerkey" }, by decide, by decide⟩⟩

/-- C8: each missing required field fails validation with the structured
pair of code 400 and a reason token distinct per field, checked in source
order; a validation failure makes the whole pipeline return exactly that
error, so no probe, composition or dispatch is attempted. -/
theorem c8_validation :
    (∀ a : Args, a.fromName = Option.none →
      validate a = some (400, "ExpectedFromNameToPostSettledInvoice"))
    ∧ (∀ a : Args, a.fromName.isSome = true → a.id = Option.none →
      validate a = some (400, "ExpectedUserIdNumberToPostSettledInvoice"))
    ∧ (∀ a : Args, a.fromName.isSome = true → a.id.isSome = true →
      a.invoice = Option.none →
      validate a = some (400, "ExpectedInvoiceToPostSettledInvoice"))
    ∧ (∀ a : Args, a.fromName.isSome = true → a.id.isSome = true →
      a.invoice.isSome = true → a.key = Option.none →
      validate a = some (400, "ExpectedNodeIdentityKeyToPostSettledInvoice"))
    ∧ (∀ a : Args, a.fromName.isSome = true → a.id.isSome = true →
      a.invoice.isSome = true → a.key.isSome = true → a.lnd = Option.none →
      validate a = some (400, "ExpectedLndObjectToPostSettledInvoice"))
    ∧ (∀ a : Args, a.fromName.isSome = true → a.id.isSome = true →
      a.invoice.isSome = true → a.key.isSome = true → a.lnd.isSome = true →
      a.nodes = Option.none →
      validate a = some (400, "ExpectedArrayOfNodesToPostSettledInvoice"))
    ∧ (∀ a : Args, a.fromName.isSome = true → a.id.isSome = true →
      a.invoice.isSome = true → a.key.isSome = true → a.lnd.isSome = true →
      a.nodes.isSome = true → a.quiz = Option.none →
      validate a =
        some (400, "ExpectedSendQuizFunctionToPostSettledInvoice"))
    ∧ (∀ a : Args, a.fromName.isSome = true → a.id.isSome = true →
      a.invoice.isSome = true → a.key.isSome = true → a.lnd.isSome = true →
      a.nodes.isSome = true → a.quiz.isSome = true → a.send = Option.none →
      validate a = some (400, "ExpectedSendFunctionToPostSettledInvoice"))
    ∧ reasonTokens.Nodup
    ∧ (∀ (o : Oracles) (a : Args) (e : Nat × String),
        validate a = some e → postSettledInvoice o a = some (Except.error e))
    ∧ (∀ (a : Args) (e : Nat × String), validate a = some e →
        e.1 = 400 ∧ e.2 ∈ reasonTokens) := by
  refine ⟨?_, ?_, ?_, ?_, ?_, ?_, ?_, ?_, by decide, ?_, ?_⟩
  · intro a h1
    simp [validate, h1]
  · intro a h1 h2
    obtain ⟨x1, hx1⟩ := Option.isSome_iff_exists.mp h1
    simp [validate, hx1, h2]
  · intro a h1 h2 h3
    obtain ⟨x1, hx1⟩ := Option.isSome_iff_exists.mp h1
    obtain ⟨x2, hx2⟩ := Option.isSome_iff_exists.mp h2
    simp [validate, hx1, hx2, h3]
  · intro a h1 h2 h3 h4
    obtain ⟨x1, hx1⟩ := Option.isSome_iff_exists.mp h1
    obtain ⟨x2, hx2⟩ := Option.isSome_iff_exists.mp h2
    obtain ⟨x3, hx3⟩ := Option.isSome_iff_exists.mp h3
    simp [validate, hx1, hx2, hx3, h4]
  · intro a h1 h2 h3 h4 h5
    obtain ⟨x1, hx1⟩ := Option.isSome_iff_exists.mp h1
    obtain ⟨x2, hx2⟩ := Option.isSome_iff_exists.mp h2
    obtain ⟨x3, hx3⟩ := Option.isSome_iff_exists.mp h3
    obtain ⟨x4, hx4⟩ := Option.isSome_iff_exists.mp h4
    simp [validate, hx1, hx2, hx3, hx4, h5]
  · intro a h1 h2 h3 h4 h5 h6
    obtain ⟨x1, hx1⟩ := Option.isSome_iff_exists.mp h1
    obtain ⟨x2, hx2⟩ := Option.isSome_iff_exists.mp h2
    obtain ⟨x3, hx3⟩ := Option.isSome_iff_exists.mp h3
    obtain ⟨x4, hx4⟩ := Option.isSome_iff_exists.mp h4
    obtain ⟨x5, hx5⟩ := Option.isSome_iff_exists.mp h5
    simp [validate, hx1, hx2, hx3, hx4, hx5, h6]
  · intro a h1 h2 h3 h4 h5 h6 h7
    obtain ⟨x1, hx1⟩ := Option.isSome_iff_exists.mp h1
    obtain ⟨x2, hx2⟩ := Option.isSome_iff_exists.mp h2
    obtain ⟨x3, hx3⟩ := Option.isSome_iff_exists.mp h3
    obtain ⟨x4, hx4⟩ := Option.isSome_iff_exists.mp h4
    obtain ⟨x5, hx5⟩ := Option.isSome_iff_exists.mp h5
    obtain ⟨x6, hx6⟩ := Option.isSome_iff_exists.mp h6
    simp [validate, hx1, hx2, hx3, hx4, hx5, hx6, h7]
  · intro a h1 h2 h3 h4 h5 h6 h7 h8
    obtain ⟨x1, hx1⟩ := Option.isSome_iff_exists.mp h1
    obtain ⟨x2, hx2⟩ := Option.isSome_iff_exists.mp h2
    obtain ⟨x3, hx3⟩ := Option.isSome_iff_exists.mp h3
    obtain ⟨x4, hx4⟩ := Option.isSome_iff_exists.mp h4
    obtain ⟨x5, hx5⟩ := Option.isSome_iff_exists.mp h5
    obtain ⟨x6, hx6⟩ := Option.isSome_iff_exists.mp h6
    obtain ⟨x7, hx7⟩ := Option.isSome_iff_exists.mp h7
    simp [validate, hx1, hx2, hx3, hx4, hx5, hx6, hx7, h8]
  · intro o a e h
    simp [postSettledInvoice, h]
  · intro a e h
    unfold validate at h
    split_ifs at h <;>
      first
        | exact Option.noConfusion h
        | (injection h with h; subst h; exact ⟨rfl, by decide⟩)

/-- Witness for C8: the concrete argument object lacking `from` fails
validation with its distinct token, and the pipeline returns exactly that
error. -/
theorem c8_validation_witness :
    aMissingFrom.fromName = Option.none ∧
    validate aMissingFrom =
      some (400, "ExpectedFromNameToPostSettledInvoice") ∧
    postSettledInvoice oQuiz aMissingFrom =
      some (Except.error (400, "ExpectedFromNameToPostSettledInvoice")) :=
  ⟨rfl, c8_validation.1 aMissingFrom rfl,
   c8_validation.2.2.2.2.2.2.2.2.2.1 oQuiz aMissingFrom _
     (c8_validation.1 aMissingFrom rfl)⟩

/-- C9: in every completed run, any quiz event in the dispatch trace is
strictly preceded by a text event: a quiz is only ever sent after the text
message, never before it and never instead of it. -/
theorem c9_quiz_after_text (o : Oracles) (a : Args)
    (trace : List DispatchEvent)
    (hrun : postSettledInvoice o a = some (Except.ok trace)) :
    ∀ i (hi : i < trace.length), isQuizEvent (trace.get ⟨i, hi⟩) = true →
      ∃ j, ∃ hj : j < trace.length, j < i ∧
        isTextEvent (trace.get ⟨j, hj⟩) = true := by
  obtain ⟨f, uid, inv, key, lnd, nodes, q, s⟩ := a
  cases f with
  | none => simp [postSettledInvoice, validate] at hrun
  | some f =>
  cases uid with
  | none => simp [postSettledInvoice, validate] at hrun
  | some uid =>
  cases inv with
  | none => simp [postSettledInvoice, validate] at hrun
  | some inv =>
  cases key with
  | none => simp [postSettledInvoice, validate] at hrun
  | some key =>
  cases lnd with
  | none => simp [postSettledInvoice, validate] at hrun
  | some lnd =>
  cases nodes with
  | none => simp [postSettledInvoice, validate] at hrun
  | some nodes =>
  cases q with
  | none => simp [postSettledInvoice, validate] at hrun
  | some q =>
  cases s with
  | none => simp [postSettledInvoice, validate] at hrun
  | some s =>
  simp only [postSettledInvoice, validate, Option.isNone_some,
    Bool.false_eq_true, if_false] at hrun
  unfold runSettled at hrun
  cases hg : getNodesStep o.getChannel o.getNodeAlias lnd key inv with
  | none => rw [hg] at hrun; simp at hrun
  | some ns =>
    rw [hg] at hrun
    simp only [Option.map_some', Option.some.injEq, Except.ok.injEq] at hrun
    subst hrun
    cases hdet : detailsStep o lnd inv
      (balancedOpenStep o.balancedOpenRequest inv) ns
      (getPaymentStep o.pastPayment lnd inv)
      (getTransferStep o.pastPayment key nodes inv) with
    | none =>
      intro i hi hqz
      simp [postStep, quizStep] at hi
    | some d =>
      rcases quizStep_shape o.rnd (some d) with hq | ⟨ans, c, qq, hq⟩
      · rw [hq]
        intro i hi hqz
        have hi0 : i = 0 := by
          have h2 := hi
          simp [postStep] at h2
          omega
        subst hi0
        simp [postStep, isQuizEvent] at hqz
      · rw [hq]
        intro i hi hqz
        have hi2 : i < 2 := by
          have h2 := hi
          simpa [postStep] using h2
        interval_cases i
        · simp [postStep, isQuizEvent] at hqz
        · refine ⟨0, by simp [postStep], by omega, ?_⟩
          simp [postStep, isTextEvent]

/-- Witness for C9: on the concrete run that dispatches both messages, the
quiz event at index 1 is preceded by the text event at index 0. -/
theorem c9_quiz_after_text_witness :
    postSettledInvoice oQuiz aQuiz = some (Except.ok traceQuiz) ∧
    (∃ j, ∃ hj : j < traceQuiz.length, j < 1 ∧
      isTextEvent (traceQuiz.get ⟨j, hj⟩) = true) :=
  ⟨rfl,
   c9_quiz_after_text oQuiz aQuiz traceQuiz rfl 1 (by decide) (by decide)⟩

end LnTelegram
